import Mathlib

/-!
Shallow embedding of the ReVoice audio-recording core: the IndexedDB-backed
chunk store (`db.ts` schema), the `ChunkBuffer` accumulator, the
`ChunkReader` reconstructor with its playback cache, `SessionManager`,
the `+page.svelte` recording lifecycle, and the `NativeEngine` streaming
result deduplicator.  Store failures (Dexie rejections) are modelled by an
explicit `storeOk : Bool` environment flag at each write; a batch write is
atomic (applied in full or not at all).
-/

namespace ReVoice

/-- A browser `Blob`: raw bytes plus a MIME type tag.
`new Blob(parts, {type})` concatenates the parts' bytes. -/
structure Blob where
  data : List Nat
  type : String
deriving Repr, DecidableEq

/-- `recordingChunks` record: `{ sessionId, sequence, blob, timestamp }`. -/
structure StoredChunk where
  sessionId : Nat
  sequence : Nat
  blob : Blob
  timestamp : Nat
deriving Repr, DecidableEq

/-- `playbackCache` record: `{ sessionId, blob, cachedAt }` (primary key `sessionId`). -/
structure CachedBlob where
  sessionId : Nat
  blob : Blob
  cachedAt : Nat
deriving Repr, DecidableEq

/-- `sessions` record (db.ts `Session`). -/
structure Session where
  id : Nat
  timestamp : Nat
  duration : Nat
  title : String
  mimeType : String
  engineType : String
  transcriptLength : Nat
deriving Repr, DecidableEq

/-- `transcripts` record (db.ts `Transcript`). -/
structure Transcript where
  id : Nat
  sessionId : Nat
  text : String
  time : Nat
  isFinal : Bool
deriving Repr, DecidableEq

/-- `audioData` record (db.ts `AudioData`). -/
structure AudioData where
  id : Nat
  sessionId : Nat
  blob : Blob
  uploadedAt : Nat
deriving Repr, DecidableEq

/-- The five Dexie object stores of `ReVoiceDB` (db.ts version 2 schema). -/
structure ReVoiceDB where
  sessions : List Session
  audioData : List AudioData
  transcripts : List Transcript
  recordingChunks : List StoredChunk
  playbackCache : List CachedBlob
deriving Repr, DecidableEq

def emptyDB : ReVoiceDB := ⟨[], [], [], [], []⟩

/-- Dexie `recordingChunks.where('sessionId').equals(sid)` (insertion order). -/
def ReVoiceDB.chunksFor (db : ReVoiceDB) (sid : Nat) : List StoredChunk :=
  db.recordingChunks.filter (fun c => c.sessionId == sid)

/-- Insertion step of `.sortBy('sequence')`. -/
def insertBySeq (c : StoredChunk) : List StoredChunk → List StoredChunk
  | [] => [c]
  | d :: rest => if c.sequence ≤ d.sequence then c :: d :: rest else d :: insertBySeq c rest

/-- `.sortBy('sequence')`: stable sort ascending by `sequence`. -/
def sortBySeq : List StoredChunk → List StoredChunk
  | [] => []
  | c :: rest => insertBySeq c (sortBySeq rest)

/-- `db.recordingChunks.where('sessionId').equals(sid).sortBy('sequence')`:
the session's chunks sorted ascending by sequence. -/
def readOrdered (db : ReVoiceDB) (sid : Nat) : List StoredChunk :=
  sortBySeq (db.chunksFor sid)

/-- `db.playbackCache.get(sessionId)`. -/
def cacheGet (db : ReVoiceDB) (sid : Nat) : Option CachedBlob :=
  db.playbackCache.find? (fun e => e.sessionId == sid)

/-- `db.playbackCache.put(entry)`: upsert keyed by `sessionId`. -/
def cachePut (db : ReVoiceDB) (e : CachedBlob) : ReVoiceDB :=
  { db with playbackCache :=
      db.playbackCache.filter (fun x => x.sessionId != e.sessionId) ++ [e] }

/-- `db.playbackCache.delete(sessionId)`. -/
def cacheDelete (db : ReVoiceDB) (sid : Nat) : ReVoiceDB :=
  { db with playbackCache := db.playbackCache.filter (fun x => x.sessionId != sid) }

/-! ## ChunkBuffer (ChunkBuffer.ts) -/

/-- In-memory state of a `ChunkBuffer` instance.  `flushTimerArmed` models
whether `this.flushTimer` is non-null (a pending `setTimeout`). -/
structure ChunkBuffer where
  chunks : List Blob
  sessionId : Nat
  sequence : Nat
  flushTimerArmed : Bool
  totalMemoryBytes : Nat
deriving Repr, DecidableEq

/-- `FLUSH_COUNT = 10` chunks. -/
def FLUSH_COUNT : Nat := 10

/-- `new ChunkBuffer(sessionId, db)`. -/
def ChunkBuffer.init (sid : Nat) : ChunkBuffer := ⟨[], sid, 0, false, 0⟩

/-- The `this.chunks.map((blob) => ({sessionId, sequence: this.sequence++, blob, timestamp}))`
record construction in `flush`: consecutive sequence numbers from `seq`. -/
def assignRecords (sid : Nat) (seq : Nat) (now : Nat) : List Blob → List StoredChunk
  | [] => []
  | b :: rest => ⟨sid, seq, b, now⟩ :: assignRecords sid (seq + 1) now rest

/-- Outcome of `flush`/`addChunk`: new buffer state, new store state, and
whether the call resolved (`ok = false` means the store error propagated). -/
structure FlushResult where
  buf : ChunkBuffer
  db : ReVoiceDB
  ok : Bool
deriving Repr, DecidableEq

/-- `ChunkBuffer.flush()`.  Empty buffer: no-op.  Otherwise the records are
built (advancing `this.sequence` per record), then `bulkAdd` runs: on success
the memory buffer is cleared; on failure (`storeOk = false`) the chunks
remain in memory, the store is unchanged (atomic batch), and the error
propagates — but `this.sequence` has already been advanced by the `map`. -/
def ChunkBuffer.flush (b : ChunkBuffer) (db : ReVoiceDB) (storeOk : Bool) (now : Nat) :
    FlushResult :=
  if b.chunks.isEmpty then ⟨b, db, true⟩
  else
    let records := assignRecords b.sessionId b.sequence now b.chunks
    let b1 : ChunkBuffer :=
      { b with flushTimerArmed := false, sequence := b.sequence + b.chunks.length }
    if storeOk then
      ⟨{ b1 with chunks := [], totalMemoryBytes := 0 },
       { db with recordingChunks := db.recordingChunks ++ records }, true⟩
    else
      ⟨b1, db, false⟩

/-- `ChunkBuffer.addChunk(chunk)`: buffer the chunk, arm the flush timer,
and if `FLUSH_COUNT` is reached, cancel the timer and flush synchronously
before returning. -/
def ChunkBuffer.addChunk (b : ChunkBuffer) (chunk : Blob) (db : ReVoiceDB)
    (storeOk : Bool) (now : Nat) : FlushResult :=
  let b1 : ChunkBuffer :=
    { b with chunks := b.chunks ++ [chunk],
             totalMemoryBytes := b.totalMemoryBytes + chunk.data.length,
             flushTimerArmed := true }
  if FLUSH_COUNT ≤ b1.chunks.length then
    ChunkBuffer.flush { b1 with flushTimerArmed := false } db storeOk now
  else
    ⟨b1, db, true⟩

/-- `ChunkBuffer.getSequence()`. -/
def ChunkBuffer.getSequence (b : ChunkBuffer) : Nat := b.sequence

/-- `ChunkBuffer.getChunkCount()`. -/
def ChunkBuffer.getChunkCount (b : ChunkBuffer) : Nat := b.chunks.length

/-- `ChunkBuffer.getMemorySize()`. -/
def ChunkBuffer.getMemorySize (b : ChunkBuffer) : Nat := b.totalMemoryBytes

/-- The flush timer firing: runs `flush` only when a timer is pending. -/
def timerStep (b : ChunkBuffer) (db : ReVoiceDB) (storeOk : Bool) (now : Nat) : FlushResult :=
  if b.flushTimerArmed then b.flush db storeOk now else ⟨b, db, true⟩

/-- One operation of a Chunk Buffer history.  `storeOk` is the environment's
verdict on the `bulkAdd` a flush in this operation would perform. -/
inductive BufOp where
  | push (chunk : Blob) (storeOk : Bool)
  | timerFire (storeOk : Bool)
  | flushOp (storeOk : Bool)
deriving Repr, DecidableEq

def BufOp.storeOk : BufOp → Bool
  | .push _ ok => ok
  | .timerFire ok => ok
  | .flushOp ok => ok

/-- Result of running a history: final buffer, final store, and the sizes of
the batches actually written to the store, in order. -/
structure RunResult where
  buf : ChunkBuffer
  db : ReVoiceDB
  batches : List Nat
deriving Repr, DecidableEq

/-- Run a history of buffer operations (single producer, sequential). -/
def runOps (b : ChunkBuffer) (db : ReVoiceDB) (now : Nat) : List BufOp → RunResult
  | [] => ⟨b, db, []⟩
  | op :: rest =>
    let step : FlushResult :=
      match op with
      | .push c ok => b.addChunk c db ok now
      | .timerFire ok => timerStep b db ok now
      | .flushOp ok => b.flush db ok now
    let wrote := step.db.recordingChunks.length - db.recordingChunks.length
    let r := runOps step.buf step.db now rest
    ⟨r.buf, r.db, (if wrote = 0 then [] else [wrote]) ++ r.batches⟩

/-! ## ChunkReader (ChunkReader.ts) -/

/-- Outcome of `ChunkReader.reconstruct`: either the blob, or the thrown
`No chunks found for session ...` error. -/
inductive RecOut where
  | ok (b : Blob)
  | notFoundErr (sid : Nat)
deriving Repr, DecidableEq

/-- Result of a `reconstruct` call: its outcome, the store afterwards, and
how many `recordingChunks` queries it performed. -/
structure ReconstructResult where
  result : RecOut
  db : ReVoiceDB
  chunkReads : Nat
deriving Repr, DecidableEq

/-- `ChunkReader.reconstruct(sessionId, db)`: return the cached blob when
present; otherwise read the session's chunks sorted by sequence, throw
NotFound when there are none, else concatenate the chunk bytes into one
blob typed `'audio/webm;codecs=opus'`, cache it, and return it. -/
def ChunkReader.reconstruct (sid : Nat) (db : ReVoiceDB) (now : Nat) : ReconstructResult :=
  match cacheGet db sid with
  | some cached => ⟨.ok cached.blob, db, 0⟩
  | none =>
    let chunks := readOrdered db sid
    if chunks.isEmpty then ⟨.notFoundErr sid, db, 1⟩
    else
      let blobs := chunks.map (fun c => c.blob)
      let reconstructedBlob : Blob := ⟨(blobs.map (fun b => b.data)).flatten, "audio/webm;codecs=opus"⟩
      ⟨.ok reconstructedBlob, cachePut db ⟨sid, reconstructedBlob, now⟩, 1⟩

/-- `ChunkReader.clearCache(sessionId, db)`. -/
def ChunkReader.clearCache (sid : Nat) (db : ReVoiceDB) : ReVoiceDB :=
  cacheDelete db sid

/-! ## SessionManager (SessionManager.ts) -/

/-- `SessionManager.clearSessionChunks(sessionId, db)`: delete the session's
`recordingChunks` rows, then clear its playback-cache entry. -/
def SessionManager.clearSessionChunks (sid : Nat) (db : ReVoiceDB) : ReVoiceDB :=
  let db1 := { db with recordingChunks :=
      db.recordingChunks.filter (fun c => c.sessionId != sid) }
  ChunkReader.clearCache sid db1

/-- `SessionManager.getChunkCount(sessionId, db)`. -/
def SessionManager.getChunkCount (sid : Nat) (db : ReVoiceDB) : Nat :=
  (db.recordingChunks.filter (fun c => c.sessionId == sid)).length

/-- `SessionManager.deleteSession(sessionId, db)`: clear chunks and cache,
then delete the session record.  The source notes: `audioData and
transcripts are left untouched`. -/
def SessionManager.deleteSession (sid : Nat) (db : ReVoiceDB) : ReVoiceDB :=
  let db1 := SessionManager.clearSessionChunks sid db
  { db1 with sessions := db1.sessions.filter (fun s => s.id != sid) }

/-! ## db.ts module-level helpers -/

namespace Db

/-- db.ts `storeAudioData(sessionId, blob)`: `db.audioData.add({...})`. -/
def storeAudioData (sid : Nat) (blob : Blob) (now : Nat) (db : ReVoiceDB) : ReVoiceDB :=
  { db with audioData := db.audioData ++ [⟨db.audioData.length, sid, blob, now⟩] }

/-- db.ts `updateSessionDuration(id, duration)`: `db.sessions.update(id, {duration})`. -/
def updateSessionDuration (sid : Nat) (dur : Nat) (db : ReVoiceDB) : ReVoiceDB :=
  { db with sessions :=
      db.sessions.map (fun s => if s.id == sid then { s with duration := dur } else s) }

/-- db.ts `deleteSession(sessionId)`: deletes the session record, its
`audioData` rows and its `transcripts` rows — and nothing else. -/
def deleteSession (sid : Nat) (db : ReVoiceDB) : ReVoiceDB :=
  { db with
    sessions := db.sessions.filter (fun s => s.id != sid),
    audioData := db.audioData.filter (fun a => a.sessionId != sid),
    transcripts := db.transcripts.filter (fun t => t.sessionId != sid) }

end Db

/-! ## Recording lifecycle (`+page.svelte`) -/

/-- The page's finite recording states. -/
inductive RecordingState where
  | idle
  | recording
  | paused
deriving Repr, DecidableEq

/-- The slice of `+page.svelte` component state that `pauseRecording`
reads or writes. -/
structure PageState where
  recordingState : RecordingState
  audioChunks : List Blob
  sessionId : Option Nat
  currentAudioBlob : Option Blob
  sessionDuration : Nat
  suppressTranscriptionErrors : Bool
  timerRunning : Bool
deriving Repr, DecidableEq

/-- Outcome of `pauseRecording()`: component state, store state, and whether
the returned promise rejected (`threw = true` would mean an error escaped
to the caller). -/
structure PauseResult where
  page : PageState
  db : ReVoiceDB
  threw : Bool
deriving Repr, DecidableEq

/-- `pauseRecording()` from `+page.svelte`.  Guard: only acts from the
`recording` state with a live recorder.  Inside a `try` block it stops the
timer and engine, pauses and flushes the recorder, builds the blob from
`audioChunks`, awaits `storeAudioData` (success decided by `storeOk`) and
`updateSessionDuration` (`durOk`), attempts a non-fatal localStorage backup
(`backupOk`, caught by an inner `try`), and only then sets
`recordingState = 'paused'`.  The `catch` block logs the error and returns
normally, so no failure ever escapes to the caller. -/
def pauseRecording (s : PageState) (hasRecorder : Bool) (db : ReVoiceDB)
    (mimeType : String) (storeOk durOk backupOk : Bool) (now dur : Nat) : PauseResult :=
  if s.recordingState != .recording || !hasRecorder then ⟨s, db, false⟩
  else
    let s1 := { s with suppressTranscriptionErrors := true, timerRunning := false }
    match s.sessionId with
    | some sid =>
      if s.audioChunks.isEmpty then
        ⟨{ s1 with recordingState := .paused }, db, false⟩
      else
        let audioBlob : Blob := ⟨(s.audioChunks.map (fun c => c.data)).flatten, mimeType⟩
        if !storeOk then
          ⟨s1, db, false⟩
        else
          let db1 := Db.storeAudioData sid audioBlob now db
          let s2 := { s1 with currentAudioBlob := some audioBlob }
          if !durOk then
            ⟨s2, db1, false⟩
          else
            let db2 := Db.updateSessionDuration sid dur db1
            let s3 := { s2 with sessionDuration := dur }
            let _ := backupOk
            ⟨{ s3 with recordingState := .paused }, db2, false⟩
    | none => ⟨{ s1 with recordingState := .paused }, db, false⟩

/-! ## Streaming result deduplicator (`NativeEngine`, engines/base.ts + native.ts) -/

/-- One entry of the Web Speech API cumulative results array:
`result[0].transcript` and `result.isFinal`. -/
structure Entry where
  transcript : String
  isFinal : Bool
deriving Repr, DecidableEq

/-- An emitted `TranscriptionResult` (`text`, `isFinal`, `resultIndex`). -/
structure Emission where
  text : String
  isFinal : Bool
  resultIndex : Nat
deriving Repr, DecidableEq

/-- One iteration of the `onresult` loop body at absolute index `i`:
emit when `i >= lastResultIndex || !isFinal`; when the entry is final,
set `lastResultIndex` to `i + 1` (a plain assignment, not a maximum). -/
def dedupStep (i : Nat) (e : Entry) (lastResultIndex : Nat) : Option Emission × Nat :=
  (if lastResultIndex ≤ i ∨ e.isFinal = false then some ⟨e.transcript, e.isFinal, i⟩ else none,
   if e.isFinal then i + 1 else lastResultIndex)

/-- The `onresult` loop over indexed entries, threading `lastResultIndex`
and collecting the emissions in order. -/
def processEntries (lastResultIndex : Nat) : List (Nat × Entry) → List Emission × Nat
  | [] => ([], lastResultIndex)
  | (i, e) :: rest =>
    let step := dedupStep i e lastResultIndex
    let r := processEntries step.2 rest
    (step.1.toList ++ r.1, r.2)

/-- `NativeEngine` states (`setState` values; `connecting` is used while
reconnecting after a natural end). -/
inductive EngineState where
  | idle
  | listening
  | processing
  | connecting
deriving Repr, DecidableEq

/-- The `NativeEngine` instance fields the deduplicator depends on. -/
structure NativeEngine where
  state : EngineState
  lastResultIndex : Nat
  isStopping : Bool
  isReconnecting : Bool
deriving Repr, DecidableEq

/-- `new NativeEngine()`: idle, `lastResultIndex = 0`. -/
def NativeEngine.init : NativeEngine := ⟨.idle, 0, false, false⟩

/-- `NativeEngine.start(stream, config)`: throws (`none`) when already
listening; otherwise configures recognition and transitions to `listening`.
It does not touch `lastResultIndex`. -/
def NativeEngine.start (e : NativeEngine) : Option NativeEngine :=
  if e.state = .listening then none
  else some { e with state := .listening }

/-- The `recognition.onresult` handler: clear any reconnecting state, then
run the dedup loop from `event.resultIndex` over the new/updated tail of the
cumulative results array, updating `lastResultIndex`. -/
def NativeEngine.onresult (e : NativeEngine) (resultIndex : Nat) (results : List Entry) :
    NativeEngine × List Emission :=
  let e1 := if e.isReconnecting then { e with isReconnecting := false, state := .listening } else e
  let r := processEntries e1.lastResultIndex (results.enumFrom resultIndex)
  ({ e1 with lastResultIndex := r.2 }, r.1)

/-- `NativeEngine.stop()`: no-op when idle; otherwise sets `isStopping` and
asks recognition to stop (the state change happens in `onend`). -/
def NativeEngine.stop (e : NativeEngine) : NativeEngine :=
  if e.state = .idle then e else { e with isStopping := true }

/-- The `recognition.onend` handler: explicit stop goes to `idle`; a natural
end during listening reconnects (state `connecting`). -/
def NativeEngine.onend (e : NativeEngine) : NativeEngine :=
  if e.isStopping then { e with isStopping := false, state := .idle }
  else if e.state = .listening then { e with isReconnecting := true, state := .connecting }
  else e

/-! ## Concrete data used by the closed theorems -/

/-- A 100-byte audio fragment, as in the 12-fragment scenario. -/
def frag100 : Blob := ⟨List.replicate 100 0, "audio/webm"⟩

/-- `n` back-to-back pushes of `frag100`, all store writes succeeding. -/
def pushes (n : Nat) : List BufOp := List.replicate n (BufOp.push frag100 true)

/-- A small two-byte fragment. -/
def blobA : Blob := ⟨[1, 2], "audio/webm"⟩

/-- History with a failing flush that is then retried: one push, a flush
rejected by the store, and a successful retry flush. -/
def hist1 : List BufOp := [BufOp.push blobA true, BufOp.flushOp false, BufOp.flushOp true]

/-- The deduplicator scenario: three revisions of utterance 0 (two interim,
one final) followed by the first interim of utterance 1. -/
def scenarioEntries : List (Nat × Entry) :=
  [(0, ⟨"Hi", false⟩), (0, ⟨"Hi there", false⟩), (0, ⟨"Hi there.", true⟩), (1, ⟨"Next", false⟩)]

/-- The emissions the scenario produces. -/
def scenarioEmissions : List Emission :=
  [⟨"Hi", false, 0⟩, ⟨"Hi there", false, 0⟩, ⟨"Hi there.", true, 0⟩, ⟨"Next", false, 1⟩]

/-- A session whose recorded format descriptor is `audio/mp4` (as on Safari). -/
def sessMp4 : Session := ⟨1, 0, 0, "t", "audio/mp4", "native", 0⟩

/-- A session recorded as WebM/Opus. -/
def sessWebm : Session := ⟨1, 0, 0, "t", "audio/webm;codecs=opus", "native", 0⟩

/-- Chunk 0 of session 1. -/
def chunk0 : StoredChunk := ⟨1, 0, ⟨[1, 2], "audio/webm"⟩, 5⟩

/-- A warm playback-cache entry for session 1 holding the reconstruction of
`chunk0` alone. -/
def cachedB : CachedBlob := ⟨1, ⟨[1, 2], "audio/webm;codecs=opus"⟩, 6⟩

/-- Store state with one chunk for session 1 and a warm cache entry. -/
def db2 : ReVoiceDB := ⟨[sessWebm], [], [], [chunk0], [cachedB]⟩

/-- A buffer for session 1 holding one not-yet-flushed fragment, with the
sequence counter already past `chunk0`. -/
def buf2 : ChunkBuffer := ⟨[⟨[3, 4], "audio/webm"⟩], 1, 1, true, 2⟩

/-- A persisted transcript line (Segment) of session 1. -/
def tr1 : Transcript := ⟨0, 1, "hello", 3, true⟩

/-- An `audioData` row of session 1. -/
def aud1 : AudioData := ⟨0, 1, ⟨[7], "audio/webm"⟩, 4⟩

/-- Store state for the deletion scenario: session 1 with two chunks, a warm
cache entry, one transcript line and one audioData row. -/
def db6 : ReVoiceDB :=
  ⟨[sessWebm], [aud1], [tr1], [chunk0, ⟨1, 1, ⟨[8], "audio/webm"⟩, 5⟩], [cachedB]⟩

/-- Store state with an `audio/mp4` session owning one chunk, cold cache. -/
def db7 : ReVoiceDB := ⟨[sessMp4], [], [], [⟨1, 0, ⟨[9], "audio/mp4"⟩, 0⟩], []⟩

/-- Page state mid-recording: one accumulated chunk, session 1 active. -/
def pageS : PageState := ⟨.recording, [⟨[1], "audio/webm"⟩], some 1, none, 0, false, true⟩

/-! ## Helper lemmas -/

theorem range'_add_eq (s m n : Nat) :
    List.range' s (m + n) = List.range' s m ++ List.range' (s + m) n := by
  induction m generalizing s with
  | zero => simp
  | succ k ih =>
    rw [Nat.succ_add, List.range'_succ, List.range'_succ, ih (s + 1)]
    simp [List.cons_append, Nat.add_comm, Nat.add_assoc, Nat.add_left_comm]

theorem assignRecords_map_seq (sid s now : Nat) (bs : List Blob) :
    (assignRecords sid s now bs).map (fun c => c.sequence) = List.range' s bs.length := by
  induction bs generalizing s with
  | nil => simp [assignRecords]
  | cons b rest ih => simp [assignRecords, List.range'_succ, ih]

theorem assignRecords_filter_self (sid s now : Nat) (bs : List Blob) :
    (assignRecords sid s now bs).filter (fun c => c.sessionId == sid)
      = assignRecords sid s now bs := by
  induction bs generalizing s with
  | nil => simp [assignRecords]
  | cons b rest ih => simp [assignRecords, List.filter_cons, ih]

theorem assignRecords_length (sid s now : Nat) (bs : List Blob) :
    (assignRecords sid s now bs).length = bs.length := by
  induction bs generalizing s with
  | nil => rfl
  | cons b rest ih => simp [assignRecords, ih]

theorem insertBySeq_le (c : StoredChunk) (l : List StoredChunk)
    (h : ∀ d ∈ l.head?, c.sequence ≤ d.sequence) : insertBySeq c l = c :: l := by
  cases l with
  | nil => rfl
  | cons d rest =>
    have hd : c.sequence ≤ d.sequence := h d rfl
    simp [insertBySeq, hd]

theorem sortBySeq_of_range' (l : List StoredChunk) (s n : Nat)
    (h : l.map (fun c => c.sequence) = List.range' s n) : sortBySeq l = l := by
  induction l generalizing s n with
  | nil => rfl
  | cons c rest ih =>
    cases n with
    | zero => simp at h
    | succ k =>
      rw [List.range'_succ] at h
      simp only [List.map_cons, List.cons.injEq] at h
      obtain ⟨hc, hrest⟩ := h
      rw [sortBySeq, ih (s + 1) k hrest]
      apply insertBySeq_le
      intro d hd
      cases rest with
      | nil => simp at hd
      | cons d0 rest0 =>
        simp only [List.head?_cons, Option.mem_def, Option.some.injEq] at hd
        subst hd
        cases k with
        | zero => simp at hrest
        | succ k' =>
          rw [List.range'_succ] at hrest
          simp only [List.map_cons, List.cons.injEq] at hrest
          omega

theorem sortBySeq_length (l : List StoredChunk) : (sortBySeq l).length = l.length := by
  have hins : ∀ (c : StoredChunk) (m : List StoredChunk),
      (insertBySeq c m).length = m.length + 1 := by
    intro c m
    induction m with
    | nil => rfl
    | cons d rest ih =>
      rw [insertBySeq]
      split
      · rfl
      · simp [ih]
  induction l with
  | nil => rfl
  | cons c rest ih =>
    rw [sortBySeq, hins, ih]
    rfl

theorem flush_playbackCache (b : ChunkBuffer) (db : ReVoiceDB) (ok : Bool) (now : Nat) :
    (b.flush db ok now).db.playbackCache = db.playbackCache := by
  rw [ChunkBuffer.flush]
  split
  · rfl
  · split <;> rfl

theorem find?_filter_none {α : Type} (p q : α → Bool) (l : List α)
    (h : ∀ x, p x = true → q x = false) : (l.filter p).find? q = none := by
  rw [List.find?_eq_none]
  intro x hx
  have h2 := (List.mem_filter.mp hx).2
  simp [h x h2]

theorem filter_filter_none {α : Type} (p q : α → Bool) (l : List α)
    (h : ∀ x, p x = true → q x = false) : (l.filter p).filter q = [] := by
  rw [List.filter_eq_nil_iff]
  intro x hx
  have h2 := (List.mem_filter.mp hx).2
  simp [h x h2]

theorem bne_then_beq_false {x sid : Nat} (h : (x != sid) = true) : (x == sid) = false := by
  simp only [bne_iff_ne, ne_eq] at h
  simp [h]

theorem cacheGet_cachePut (db : ReVoiceDB) (e : CachedBlob) :
    cacheGet (cachePut db e) e.sessionId = some e := by
  rw [cacheGet, cachePut]
  simp only
  rw [List.find?_append, find?_filter_none _ _ _ (fun x hx => bne_then_beq_false hx)]
  simp [List.find?]

theorem isEmpty_false_of_ne_nil {l : List Blob} (h : l ≠ []) : l.isEmpty = false := by
  cases hb : l with
  | nil => exact absurd hb h
  | cons x xs => rfl

theorem flush_ok_eq (b : ChunkBuffer) (db : ReVoiceDB) (now : Nat) (h : b.chunks ≠ []) :
    b.flush db true now =
      ⟨{ b with flushTimerArmed := false, sequence := b.sequence + b.chunks.length,
                chunks := [], totalMemoryBytes := 0 },
       { db with recordingChunks :=
           db.recordingChunks ++ assignRecords b.sessionId b.sequence now b.chunks }, true⟩ := by
  rw [ChunkBuffer.flush, if_neg (by simp [isEmpty_false_of_ne_nil h])]
  rfl

theorem flush_fail_eq (b : ChunkBuffer) (db : ReVoiceDB) (now : Nat) (h : b.chunks ≠ []) :
    b.flush db false now =
      ⟨{ b with flushTimerArmed := false, sequence := b.sequence + b.chunks.length }, db, false⟩ := by
  rw [ChunkBuffer.flush, if_neg (by simp [isEmpty_false_of_ne_nil h])]
  rfl

/-- Store invariant for all-success histories: the session's stored sequence
numbers are exactly `0, ..., sequence - 1`, in insertion order. -/
def SeqInv (b : ChunkBuffer) (db : ReVoiceDB) : Prop :=
  (db.chunksFor b.sessionId).map (fun c => c.sequence) = List.range' 0 b.sequence

theorem flush_ok_inv (b : ChunkBuffer) (db : ReVoiceDB) (now : Nat) (h : SeqInv b db) :
    SeqInv (b.flush db true now).buf (b.flush db true now).db := by
  by_cases hc : b.chunks = []
  · rw [ChunkBuffer.flush, if_pos (by simp [hc])]
    exact h
  · have h2 : List.map (fun c => c.sequence)
        (List.filter (fun c => c.sessionId == b.sessionId) db.recordingChunks)
        = List.range' 0 b.sequence := h
    rw [flush_ok_eq b db now hc]
    show (ReVoiceDB.chunksFor _ _).map _ = _
    simp only [ReVoiceDB.chunksFor]
    simp only [List.filter_append, List.map_append]
    rw [assignRecords_filter_self, assignRecords_map_seq, h2]
    have h3 := range'_add_eq 0 b.sequence b.chunks.length
    rw [Nat.zero_add] at h3
    exact h3.symm

theorem addChunk_ok_inv (b : ChunkBuffer) (c : Blob) (db : ReVoiceDB) (now : Nat)
    (h : SeqInv b db) :
    SeqInv (b.addChunk c db true now).buf (b.addChunk c db true now).db := by
  rw [ChunkBuffer.addChunk]
  split
  · exact flush_ok_inv _ db now h
  · exact h

theorem timerStep_ok_inv (b : ChunkBuffer) (db : ReVoiceDB) (now : Nat) (h : SeqInv b db) :
    SeqInv (timerStep b db true now).buf (timerStep b db true now).db := by
  rw [timerStep]
  split
  · exact flush_ok_inv b db now h
  · exact h

theorem runOps_ok_inv (ops : List BufOp) (b : ChunkBuffer) (db : ReVoiceDB) (now : Nat)
    (hops : ∀ op ∈ ops, op.storeOk = true) (h : SeqInv b db) :
    SeqInv (runOps b db now ops).buf (runOps b db now ops).db := by
  induction ops generalizing b db with
  | nil => exact h
  | cons op rest ih =>
    have hop := hops op (List.mem_cons_self op rest)
    have hrest : ∀ o ∈ rest, o.storeOk = true := fun o ho => hops o (List.mem_cons_of_mem op ho)
    cases op with
    | push c ok =>
      cases hop
      simp only [runOps]
      exact ih _ _ hrest (addChunk_ok_inv b c db now h)
    | timerFire ok =>
      cases hop
      simp only [runOps]
      exact ih _ _ hrest (timerStep_ok_inv b db now h)
    | flushOp ok =>
      cases hop
      simp only [runOps]
      exact ih _ _ hrest (flush_ok_inv b db now h)

theorem flush_sessionId (b : ChunkBuffer) (db : ReVoiceDB) (ok : Bool) (now : Nat) :
    (b.flush db ok now).buf.sessionId = b.sessionId := by
  rw [ChunkBuffer.flush]
  split
  · rfl
  · split <;> rfl

theorem addChunk_sessionId (b : ChunkBuffer) (c : Blob) (db : ReVoiceDB) (ok : Bool) (now : Nat) :
    (b.addChunk c db ok now).buf.sessionId = b.sessionId := by
  rw [ChunkBuffer.addChunk]
  split
  · exact flush_sessionId _ db ok now
  · rfl

theorem timerStep_sessionId (b : ChunkBuffer) (db : ReVoiceDB) (ok : Bool) (now : Nat) :
    (timerStep b db ok now).buf.sessionId = b.sessionId := by
  rw [timerStep]
  split
  · exact flush_sessionId b db ok now
  · rfl

theorem runOps_sessionId (ops : List BufOp) (b : ChunkBuffer) (db : ReVoiceDB) (now : Nat) :
    (runOps b db now ops).buf.sessionId = b.sessionId := by
  induction ops generalizing b db with
  | nil => rfl
  | cons op rest ih =>
    cases op with
    | push c ok =>
      simp only [runOps]
      rw [ih]
      exact addChunk_sessionId b c db ok now
    | timerFire ok =>
      simp only [runOps]
      rw [ih]
      exact timerStep_sessionId b db ok now
    | flushOp ok =>
      simp only [runOps]
      rw [ih]
      exact flush_sessionId b db ok now

/-! ## Claim theorems -/

/-- C1 (counterexample).  The claimed invariant — stored sequence numbers form
the contiguous range `[0, N)` for *any* history of flushes, including flushes
that fail at the store and are later retried — is false on the code: after
the history `hist1` (one push, one flush rejected by the store, one retried
successful flush) the single stored chunk carries sequence number 1, not 0,
because `flush` advanced the sequence counter before the failing write. -/
theorem C1_counterexample :
    ¬ ((readOrdered (runOps (ChunkBuffer.init 1) emptyDB 0 hist1).db 1).map
          (fun c => c.sequence)
        = List.range (((runOps (ChunkBuffer.init 1) emptyDB 0 hist1).db.chunksFor 1).length)) := by
  decide

/-- C1 (amended).  For every history of push, timer and flush operations in
which every store write succeeds, the session's stored chunks carry exactly
the sequence numbers `{0, ..., N-1}` — no gaps, no duplicates — where `N` is
the number of chunks stored, and `readOrdered` returns them sorted ascending
by sequence. -/
theorem C1_contiguous_when_all_flushes_succeed (ops : List BufOp) (sid now : Nat)
    (h : ∀ op ∈ ops, op.storeOk = true) :
    (readOrdered (runOps (ChunkBuffer.init sid) emptyDB now ops).db sid).map
        (fun c => c.sequence)
      = List.range (((runOps (ChunkBuffer.init sid) emptyDB now ops).db.chunksFor sid).length) := by
  have hinv := runOps_ok_inv ops (ChunkBuffer.init sid) emptyDB now h (by rfl)
  have hsid := runOps_sessionId ops (ChunkBuffer.init sid) emptyDB now
  rw [SeqInv, hsid] at hinv
  have hinit : (ChunkBuffer.init sid).sessionId = sid := rfl
  rw [hinit] at hinv
  have hlen : ((runOps (ChunkBuffer.init sid) emptyDB now ops).db.chunksFor sid).length
      = (runOps (ChunkBuffer.init sid) emptyDB now ops).buf.sequence := by
    have := congrArg List.length hinv
    simpa using this
  rw [readOrdered, sortBySeq_of_range' _ 0 _ hinv, hinv, hlen, List.range_eq_range']

/-- History witnessing C1 (amended): one successful push and one successful
flush. -/
def hist2 : List BufOp := [BufOp.push blobA true, BufOp.flushOp true]

/-- Witness for `C1_contiguous_when_all_flushes_succeed` at the concrete
all-success history `hist2`. -/
theorem C1_witness :
    (∀ op ∈ hist2, op.storeOk = true)
  ∧ (readOrdered (runOps (ChunkBuffer.init 1) emptyDB 0 hist2).db 1).map
        (fun c => c.sequence)
      = List.range (((runOps (ChunkBuffer.init 1) emptyDB 0 hist2).db.chunksFor 1).length) :=
  ⟨by decide, C1_contiguous_when_all_flushes_succeed hist2 1 0 (by decide)⟩

/-- C9.  Pushing 12 fragments of 100 bytes back-to-back produces exactly two
flush batches — the first of 10 chunks, written synchronously inside the 10th
`addChunk` (so it is already in the store, and the pending timer cancelled,
when the first 10 pushes have run), the second of the remaining 2 chunks when
the timer fires — and the 12 stored chunks carry sequence numbers 0–11. -/
theorem C9_twelve_fragments_two_batches :
    (runOps (ChunkBuffer.init 1) emptyDB 0 (pushes 10)).batches = [10]
  ∧ (runOps (ChunkBuffer.init 1) emptyDB 0 (pushes 10)).buf.flushTimerArmed = false
  ∧ (runOps (ChunkBuffer.init 1) emptyDB 0 (pushes 10)).buf.chunks = []
  ∧ (runOps (ChunkBuffer.init 1) emptyDB 0 (pushes 12 ++ [BufOp.timerFire true])).batches
      = [10, 2]
  ∧ (readOrdered (runOps (ChunkBuffer.init 1) emptyDB 0
        (pushes 12 ++ [BufOp.timerFire true])).db 1).map (fun c => c.sequence)
      = List.range 12 := by
  decide

/-- C10.  When the batch write of a flush fails, the per-session sequence
counter has already been advanced by the number of buffered fragments before
the error propagates (`ok = false`), the fragments stay in memory and the
store is unchanged; a subsequent successful flush writes those retained
fragments under the new, higher sequence numbers
`[sequence + n, sequence + 2n)` instead of the originally assigned
`[sequence, sequence + n)`, and `getSequence()` reflects the advanced
value. -/
theorem C10_failed_flush_advances_sequence (b : ChunkBuffer) (db : ReVoiceDB)
    (now now2 : Nat) (h : b.chunks ≠ []) :
    (b.flush db false now).ok = false
  ∧ (b.flush db false now).db = db
  ∧ (b.flush db false now).buf.chunks = b.chunks
  ∧ (b.flush db false now).buf.getSequence = b.sequence + b.chunks.length
  ∧ ((b.flush db false now).buf.flush db true now2).ok = true
  ∧ ((b.flush db false now).buf.flush db true now2).db.recordingChunks
      = db.recordingChunks
        ++ assignRecords b.sessionId (b.sequence + b.chunks.length) now2 b.chunks
  ∧ (assignRecords b.sessionId (b.sequence + b.chunks.length) now2 b.chunks).map
        (fun c => c.sequence)
      = List.range' (b.sequence + b.chunks.length) b.chunks.length := by
  rw [flush_fail_eq b db now h]
  have hretry := flush_ok_eq
    { b with flushTimerArmed := false, sequence := b.sequence + b.chunks.length } db now2 h
  rw [hretry]
  exact ⟨rfl, rfl, rfl, rfl, rfl, rfl, assignRecords_map_seq _ _ _ _⟩

/-- Witness for `C10_failed_flush_advances_sequence` at the concrete buffer
`buf2` (one buffered fragment, sequence counter at 1) over the store `db2`. -/
theorem C10_witness :
    buf2.chunks ≠ []
  ∧ ((buf2.flush db2 false 7).ok = false
      ∧ (buf2.flush db2 false 7).db = db2
      ∧ (buf2.flush db2 false 7).buf.chunks = buf2.chunks
      ∧ (buf2.flush db2 false 7).buf.getSequence = buf2.sequence + buf2.chunks.length
      ∧ ((buf2.flush db2 false 7).buf.flush db2 true 9).ok = true
      ∧ ((buf2.flush db2 false 7).buf.flush db2 true 9).db.recordingChunks
          = db2.recordingChunks
            ++ assignRecords buf2.sessionId (buf2.sequence + buf2.chunks.length) 9 buf2.chunks
      ∧ (assignRecords buf2.sessionId (buf2.sequence + buf2.chunks.length) 9 buf2.chunks).map
            (fun c => c.sequence)
          = List.range' (buf2.sequence + buf2.chunks.length) buf2.chunks.length) :=
  ⟨by decide, C10_failed_flush_advances_sequence buf2 db2 7 9 (by decide)⟩

/-- C3.  The deduplicator emits an entry at position `i` iff
`i >= lastFinalizedIndex` or the entry is interim, and a final entry sets the
watermark to `i + 1` regardless of emission.  On the scenario window
`[(0,Hi,interim), (0,Hi there,interim), (0,Hi there.,final), (1,Next,interim)]`
processed from watermark 0, the emissions are exactly the two interim
revisions of index 0, then one final emission for index 0, then one interim
emission for index 1 (so exactly one final for index 0, followed by exactly
one interim for index 1), leaving the watermark at 1; re-delivering index 0
as final afterwards emits nothing. -/
theorem C3_dedup_rule_and_scenario :
    (∀ i e last, ((dedupStep i e last).1 ≠ none ↔ (last ≤ i ∨ e.isFinal = false))
      ∧ (dedupStep i e last).2 = (if e.isFinal then i + 1 else last))
  ∧ processEntries 0 scenarioEntries = (scenarioEmissions, 1)
  ∧ (scenarioEmissions.filter (fun m => m.isFinal && m.resultIndex == 0)).length = 1
  ∧ (scenarioEmissions.filter (fun m => !m.isFinal && m.resultIndex == 1)).length = 1
  ∧ scenarioEmissions.getLast? = some ⟨"Next", false, 1⟩
  ∧ dedupStep 0 ⟨"Hi there.", true⟩ 1 = (none, 1) := by
  refine ⟨?_, by decide, by decide, by decide, by decide, by decide⟩
  intro i e last
  constructor
  · rw [dedupStep]
    split
    · rename_i hcond
      simpa using hcond
    · rename_i hcond
      simpa using hcond
  · rfl

/-- C4 (counterexample).  The watermark is *not* re-initialized to 0 at the
start of every recording session: a fresh engine starts with watermark 0, but
after one final result (watermark 1), an explicit stop, the `onend` event and
a new `start()`, the watermark is still 1 — so the next session does not
begin at 0.  Moreover the update `lastResultIndex = i + 1` is a plain
assignment, so processing a re-delivered final at index 0 with watermark 2
lowers it to 1: within-session the watermark does not only increase. -/
theorem C4_counterexample :
    NativeEngine.start NativeEngine.init = some ⟨.listening, 0, false, false⟩
  ∧ (NativeEngine.onresult ⟨.listening, 0, false, false⟩ 0 [⟨"Hi.", true⟩]).1
      = ⟨.listening, 1, false, false⟩
  ∧ NativeEngine.start (NativeEngine.onend (NativeEngine.stop ⟨.listening, 1, false, false⟩))
      = some ⟨.listening, 1, false, false⟩
  ∧ (1 : Nat) ≠ 0
  ∧ (dedupStep 0 ⟨"Hi.", true⟩ 2).2 = 1
  ∧ 1 < 2 := by
  decide

/-- C4 (amended).  The watermark is initialized to 0 when the `NativeEngine`
object is constructed, and `start()` leaves it unchanged (it is
engine-instance state that persists across recording sessions, not
per-session state); on each final entry at index `i` it is set to `i + 1` by
plain assignment (which can also lower it when an already-settled entry is
re-delivered at a lower index). -/
theorem C4_watermark_is_instance_state :
    NativeEngine.init.lastResultIndex = 0
  ∧ (∀ e e', NativeEngine.start e = some e' → e'.lastResultIndex = e.lastResultIndex)
  ∧ (∀ i en last, (dedupStep i en last).2 = (if en.isFinal then i + 1 else last)) := by
  refine ⟨rfl, ?_, fun i en last => rfl⟩
  intro e e' h
  rw [NativeEngine.start] at h
  split at h
  · exact Option.noConfusion h
  · injection h with h2
    rw [← h2]

/-- Witness for `C4_watermark_is_instance_state`: starting a freshly
constructed engine succeeds and preserves the watermark. -/
theorem C4_witness :
    NativeEngine.start NativeEngine.init
      = some ⟨.listening, 0, false, false⟩
  ∧ (⟨.listening, 0, false, false⟩ : NativeEngine).lastResultIndex
      = NativeEngine.init.lastResultIndex :=
  ⟨by decide,
   C4_watermark_is_instance_state.2.1 NativeEngine.init ⟨.listening, 0, false, false⟩ (by decide)⟩

/-- C5 (counterexample).  When persisting the audio fails during
`pauseRecording` (here `storeAudioData` rejects, `storeOk = false`), the
failure is *not* surfaced to the caller: the outer `catch` logs it and the
call resolves normally (`threw = false`).  (The state half of the claim does
hold on this input: the state stays `recording`.) -/
theorem C5_counterexample :
    (pauseRecording pageS true emptyDB "audio/webm" false true true 3 44).threw = false
  ∧ (pauseRecording pageS true emptyDB "audio/webm" false true true 3 44).page.recordingState
      = RecordingState.recording
  ∧ pageS.recordingState = RecordingState.recording := by
  decide

/-- C5 (amended).  `pauseRecording` never propagates a failure to its caller
(the outer `catch` always swallows it, `threw = false`), and when persisting
the reconstructed audio or the updated duration fails during a
Recording-to-Paused transition, the externally-visible state does not become
`Paused` — it remains `recording`, because `recordingState = 'paused'` is
assigned only after the persistence steps succeed. -/
theorem C5_pause_swallows_persistence_errors (s : PageState) (hasRecorder : Bool)
    (db : ReVoiceDB) (mime : String) (storeOk durOk backupOk : Bool) (now dur : Nat) :
    (pauseRecording s hasRecorder db mime storeOk durOk backupOk now dur).threw = false
  ∧ (s.recordingState = .recording → hasRecorder = true → s.sessionId.isSome = true →
      s.audioChunks ≠ [] → (storeOk = false ∨ durOk = false) →
      (pauseRecording s hasRecorder db mime storeOk durOk backupOk now dur).page.recordingState
        = .recording) := by
  constructor
  · rw [pauseRecording]
    split
    · rfl
    · cases hsid : s.sessionId with
      | none => rfl
      | some sid =>
        repeat' split
        all_goals rfl
  · intro h1 h2 h3 h4 h5
    obtain ⟨sid, hsid⟩ := Option.isSome_iff_exists.mp h3
    rw [pauseRecording, if_neg (by simp [h1, h2]), hsid]
    simp only
    rw [if_neg (by simp [isEmpty_false_of_ne_nil h4])]
    cases h5 with
    | inl hS =>
      subst hS
      simp [h1]
    | inr hD =>
      subst hD
      cases storeOk with
      | false => simp [h1]
      | true => simp [h1]

/-- Witness for `C5_pause_swallows_persistence_errors` at the concrete page
state `pageS` with a failing `updateSessionDuration`. -/
theorem C5_witness :
    (pageS.recordingState = .recording ∧ pageS.sessionId.isSome = true
      ∧ pageS.audioChunks ≠ [])
  ∧ (pauseRecording pageS true emptyDB "audio/webm" true false true 3 44).page.recordingState
      = .recording :=
  ⟨by decide,
   (C5_pause_swallows_persistence_errors pageS true emptyDB "audio/webm" true false true 3 44).2
     rfl rfl (by decide) (by decide) (Or.inr rfl)⟩

/-- C2 (counterexample).  Writing new chunks does not invalidate the cached
reconstruction: flushing a new fragment for session 1 over `db2` (which holds
a warm cache entry `cachedB`) stores a second chunk but leaves the
`playbackCache` untouched, and the next `reconstruct` returns the stale
cached blob, whose bytes differ from the concatenation of the now-two stored
chunks. -/
theorem C2_counterexample :
    (buf2.flush db2 true 7).db.playbackCache = db2.playbackCache
  ∧ (buf2.flush db2 true 7).db.recordingChunks.length = 2
  ∧ (ChunkReader.reconstruct 1 (buf2.flush db2 true 7).db 8).result = .ok cachedB.blob
  ∧ cachedB.blob.data
      ≠ ((readOrdered (buf2.flush db2 true 7).db 1).map (fun c => c.blob.data)).flatten := by
  decide

/-- C2 (amended).  `ChunkBuffer.flush` never touches the playback cache, so a
write of new chunks after a reconstruction has been cached does *not*
invalidate the cache entry: the next `reconstruct` is a cache hit returning
the previously cached blob, not a rebuild reflecting the appended chunks.
The entry is removed only by `ChunkReader.clearCache` (session deletion). -/
theorem C2_flush_does_not_invalidate_cache (b : ChunkBuffer) (db : ReVoiceDB)
    (storeOk : Bool) (now : Nat) (sid : Nat) (e : CachedBlob)
    (h : cacheGet db sid = some e) :
    (b.flush db storeOk now).db.playbackCache = db.playbackCache
  ∧ ∀ now2, (ChunkReader.reconstruct sid (b.flush db storeOk now).db now2).result
      = .ok e.blob := by
  have hpc := flush_playbackCache b db storeOk now
  refine ⟨hpc, fun now2 => ?_⟩
  have hget : cacheGet (b.flush db storeOk now).db sid = some e := by
    rw [cacheGet, hpc]
    rw [cacheGet] at h
    exact h
  rw [ChunkReader.reconstruct, hget]

/-- Witness for `C2_flush_does_not_invalidate_cache` at the concrete store
`db2` with its warm cache entry `cachedB`. -/
theorem C2_witness :
    cacheGet db2 1 = some cachedB
  ∧ ((buf2.flush db2 true 7).db.playbackCache = db2.playbackCache
      ∧ ∀ now2, (ChunkReader.reconstruct 1 (buf2.flush db2 true 7).db now2).result
          = .ok cachedB.blob) :=
  ⟨by decide, C2_flush_does_not_invalidate_cache buf2 db2 true 7 1 cachedB (by decide)⟩

theorem chunksFor_isEmpty_false {db : ReVoiceDB} {sid : Nat}
    (h : db.chunksFor sid ≠ []) : (readOrdered db sid).isEmpty = false := by
  have hlen : (readOrdered db sid).length = (db.chunksFor sid).length := sortBySeq_length _
  cases hr : readOrdered db sid with
  | cons x xs => rfl
  | nil =>
    rw [hr] at hlen
    cases hc : db.chunksFor sid with
    | nil => exact absurd hc h
    | cons y ys =>
      rw [hc] at hlen
      simp at hlen

/-- C6 (counterexample).  Neither session-delete operation performs the full
claimed cascade on `db6` (session 1 with two chunks, a warm cache entry, one
transcript line and one audioData row): `SessionManager.deleteSession` leaves
the session's Segment (`tr1`) in `transcripts`, while the db.ts
`deleteSession` (the one the UI's delete button calls) leaves both the
session's chunks and its cached reconstruction in place. -/
theorem C6_counterexample :
    (SessionManager.deleteSession 1 db6).transcripts = [tr1]
  ∧ tr1.sessionId = 1
  ∧ (Db.deleteSession 1 db6).recordingChunks.length = 2
  ∧ cacheGet (Db.deleteSession 1 db6) 1 = some cachedB := by
  decide

/-- C6 (amended).  `SessionManager.deleteSession` removes the session record
and cascades to the session's Chunks and its cached reconstruction — so the
chunk count becomes 0, the cache entry is gone, and a subsequent
`reconstruct` fails with NotFound — but it leaves the session's Segments
(`transcripts`) untouched; conversely the db.ts `deleteSession` removes the
session, its audioData and its Segments but not chunks or cache. -/
theorem C6_delete_cascade_partial (db : ReVoiceDB) (sid now : Nat) :
    SessionManager.getChunkCount sid (SessionManager.deleteSession sid db) = 0
  ∧ (ChunkReader.reconstruct sid (SessionManager.deleteSession sid db) now).result
      = .notFoundErr sid
  ∧ cacheGet (SessionManager.deleteSession sid db) sid = none
  ∧ (SessionManager.deleteSession sid db).sessions.filter (fun s => s.id == sid) = []
  ∧ (SessionManager.deleteSession sid db).transcripts = db.transcripts
  ∧ (Db.deleteSession sid db).recordingChunks = db.recordingChunks
  ∧ (Db.deleteSession sid db).playbackCache = db.playbackCache := by
  have hchunks : (SessionManager.deleteSession sid db).recordingChunks
      = db.recordingChunks.filter (fun c => c.sessionId != sid) := rfl
  have hcache : (SessionManager.deleteSession sid db).playbackCache
      = db.playbackCache.filter (fun x => x.sessionId != sid) := rfl
  have hget : cacheGet (SessionManager.deleteSession sid db) sid = none := by
    rw [cacheGet, hcache]
    exact find?_filter_none _ _ _ (fun x hx => bne_then_beq_false hx)
  have hcf : (SessionManager.deleteSession sid db).chunksFor sid = [] := by
    rw [ReVoiceDB.chunksFor, hchunks]
    exact filter_filter_none _ _ _ (fun x hx => bne_then_beq_false hx)
  refine ⟨?_, ?_, hget, ?_, rfl, rfl, rfl⟩
  · rw [SessionManager.getChunkCount, hchunks]
    rw [filter_filter_none _ _ _ (fun x hx => bne_then_beq_false hx)]
    rfl
  · rw [ChunkReader.reconstruct, hget]
    simp only [readOrdered, hcf]
    rfl
  · show (db.sessions.filter (fun s => s.id != sid)).filter (fun s => s.id == sid) = []
    exact filter_filter_none _ _ _ (fun x hx => bne_then_beq_false hx)

/-- C7 (counterexample).  `reconstruct` tags its output with the hard-coded
string `'audio/webm;codecs=opus'`, not with the session's recorded format
descriptor: on `db7`, whose session metadata records `audio/mp4`, the
returned blob is typed `audio/webm;codecs=opus`. -/
theorem C7_counterexample :
    (ChunkReader.reconstruct 1 db7 5).result = .ok ⟨[9], "audio/webm;codecs=opus"⟩
  ∧ db7.sessions = [sessMp4]
  ∧ sessMp4.mimeType = "audio/mp4"
  ∧ ("audio/webm;codecs=opus" : String) ≠ sessMp4.mimeType := by
  decide

/-- C7 (amended).  For every session with at least one stored chunk and no
cached entry, `reconstruct` returns a blob whose bytes are the concatenation
of the session's chunk bytes in ascending sequence order and whose type tag
is the fixed string `'audio/webm;codecs=opus'`, regardless of the format
descriptor recorded in the session's metadata. -/
theorem C7_reconstruct_bytes_and_fixed_type (db : ReVoiceDB) (sid now : Nat)
    (hc : cacheGet db sid = none) (hne : db.chunksFor sid ≠ []) :
    (ChunkReader.reconstruct sid db now).result
      = .ok ⟨((readOrdered db sid).map (fun c => c.blob.data)).flatten,
             "audio/webm;codecs=opus"⟩ := by
  rw [ChunkReader.reconstruct, hc]
  simp only [chunksFor_isEmpty_false hne, Bool.false_eq_true, if_false, List.map_map]
  rfl

/-- Witness for `C7_reconstruct_bytes_and_fixed_type` at the concrete store
`db7` (cold cache, one chunk). -/
theorem C7_witness :
    (cacheGet db7 1 = none ∧ db7.chunksFor 1 ≠ [])
  ∧ (ChunkReader.reconstruct 1 db7 5).result
      = .ok ⟨((readOrdered db7 1).map (fun c => c.blob.data)).flatten,
             "audio/webm;codecs=opus"⟩ :=
  ⟨⟨by decide, by decide⟩, C7_reconstruct_bytes_and_fixed_type db7 1 5 (by decide) (by decide)⟩

/-- C8.  For a fixed chunk set (no intervening writes), two `reconstruct`
calls return byte-identical output — the same blob `b` — and the second call
is a cache hit: it performs no chunk-store reads (`chunkReads = 0`) and
leaves the store unchanged. -/
theorem C8_reconstruct_idempotent_and_cached (db : ReVoiceDB) (sid now now2 : Nat)
    (h : db.chunksFor sid ≠ []) :
    ∃ b : Blob,
      (ChunkReader.reconstruct sid db now).result = .ok b
    ∧ (ChunkReader.reconstruct sid (ChunkReader.reconstruct sid db now).db now2).result = .ok b
    ∧ (ChunkReader.reconstruct sid (ChunkReader.reconstruct sid db now).db now2).chunkReads = 0
    ∧ (ChunkReader.reconstruct sid (ChunkReader.reconstruct sid db now).db now2).db
        = (ChunkReader.reconstruct sid db now).db := by
  cases hget : cacheGet db sid with
  | some e =>
    have h1 : ChunkReader.reconstruct sid db now = ⟨.ok e.blob, db, 0⟩ := by
      rw [ChunkReader.reconstruct, hget]
    have h2 : ChunkReader.reconstruct sid db now2 = ⟨.ok e.blob, db, 0⟩ := by
      rw [ChunkReader.reconstruct, hget]
    exact ⟨e.blob, by rw [h1], by rw [h1, h2], by rw [h1, h2], by rw [h1, h2]⟩
  | none =>
    have hne := chunksFor_isEmpty_false h
    have h1 : ChunkReader.reconstruct sid db now =
        ⟨.ok ⟨((readOrdered db sid).map (fun c => c.blob)).map (fun b => b.data) |>.flatten,
              "audio/webm;codecs=opus"⟩,
         cachePut db ⟨sid, ⟨((readOrdered db sid).map (fun c => c.blob)).map (fun b => b.data)
              |>.flatten, "audio/webm;codecs=opus"⟩, now⟩, 1⟩ := by
      rw [ChunkReader.reconstruct, hget]
      simp only [hne, Bool.false_eq_true, if_false]
    set B : Blob := ⟨((readOrdered db sid).map (fun c => c.blob)).map (fun b => b.data) |>.flatten,
        "audio/webm;codecs=opus"⟩ with hB
    have h2 : cacheGet (cachePut db ⟨sid, B, now⟩) sid = some ⟨sid, B, now⟩ :=
      cacheGet_cachePut db ⟨sid, B, now⟩
    have h3 : ChunkReader.reconstruct sid (cachePut db ⟨sid, B, now⟩) now2
        = ⟨.ok B, cachePut db ⟨sid, B, now⟩, 0⟩ := by
      rw [ChunkReader.reconstruct, h2]
    exact ⟨B, by rw [h1], by rw [h1, h3], by rw [h1, h3], by rw [h1, h3]⟩

/-- Witness for `C8_reconstruct_idempotent_and_cached` at the concrete store
`db7` (one stored chunk). -/
theorem C8_witness :
    db7.chunksFor 1 ≠ []
  ∧ ∃ b : Blob,
      (ChunkReader.reconstruct 1 db7 5).result = .ok b
    ∧ (ChunkReader.reconstruct 1 (ChunkReader.reconstruct 1 db7 5).db 6).result = .ok b
    ∧ (ChunkReader.reconstruct 1 (ChunkReader.reconstruct 1 db7 5).db 6).chunkReads = 0
    ∧ (ChunkReader.reconstruct 1 (ChunkReader.reconstruct 1 db7 5).db 6).db
        = (ChunkReader.reconstruct 1 db7 5).db :=
  ⟨by decide, C8_reconstruct_idempotent_and_cached db7 1 5 6 (by decide)⟩

end ReVoice
